import Mathlib

/-!
Verification of the chart-geometry and data-client layer of the
Fintech-Forecaster frontend.

The development shallowly embeds the pure computations of the repository:

* the candlestick chart scale computation of
  `frontend/src/components/CandlestickChart.tsx`;
* the enhanced chart scale, date-range, time-to-x mapping and forecast
  down-sampling of `components/EnhancedCandlestickChart.tsx`;
* the error-statistics engine of
  `frontend/src/components/MonitoringDashboard.tsx`
  (`calculateModelMetrics`);
* the fetch wrappers of `frontend/src/lib/mongodb.ts`.

Finite JavaScript numbers are modeled as rationals (`ℚ`); where the
behaviour on the special values `NaN` and `Infinity` is at stake, a
dedicated extended-value type `JsVal` mirrors IEEE special-value
propagation of the JavaScript operators used by the code.
-/

namespace Fintech

/-- Historical OHLC price point (`HistoricalPrice` in
`frontend/src/lib/mongodb.ts`).  Only the numeric fields consumed by the
chart geometry are modeled; `open` is called `open_` because `open` is a
Lean keyword. -/
structure HistoricalPrice where
  timestamp : ℚ
  open_ : ℚ
  high : ℚ
  low : ℚ
  close : ℚ
  volume : ℚ
deriving DecidableEq, Repr

/-- Forecast point (`Forecast` in `frontend/src/lib/mongodb.ts`): the
confidence bounds are `number | null`, modeled as `Option ℚ`. -/
structure Forecast where
  target_timestamp : ℚ
  predicted_price : ℚ
  confidence_lower : Option ℚ
  confidence_upper : Option ℚ
deriving DecidableEq, Repr

instance : Inhabited Forecast := ⟨⟨0, 0, none, none⟩⟩

/-- Derived chart scale (the `{ minPrice, maxPrice, priceRange }` record
returned by the `useMemo` blocks of both chart components). -/
structure ChartScale where
  minPrice : ℚ
  maxPrice : ℚ
  priceRange : ℚ
deriving DecidableEq, Repr

/-- JavaScript truthiness of a `number | null` field: `null` and `0` are
falsy, any other (finite) number is truthy.  This is the test performed by
`forecasts.filter(f => f.confidence_lower)` and by the
`confidence_lower && confidence_upper` guards in the chart components. -/
def jsTruthy : Option ℚ → Bool
  | none => false
  | some q => decide (q ≠ 0)

/-- Values contributed to the price collection by truthy
`confidence_lower` fields:
`forecasts.filter(f => f.confidence_lower).map(f => f.confidence_lower!)`. -/
def confLowerValues (fs : List Forecast) : List ℚ :=
  (fs.filter fun f => jsTruthy f.confidence_lower).map fun f =>
    f.confidence_lower.getD 0

/-- Values contributed to the price collection by truthy
`confidence_upper` fields. -/
def confUpperValues (fs : List Forecast) : List ℚ :=
  (fs.filter fun f => jsTruthy f.confidence_upper).map fun f =>
    f.confidence_upper.getD 0

/-- The `allPrices` array built by `CandlestickChart`:
lows and highs of all historical points, predicted prices, and the truthy
confidence bounds. -/
def allChartPrices (data : List HistoricalPrice) (fs : List Forecast) :
    List ℚ :=
  (data.map fun d => [d.low, d.high]).flatten ++
    fs.map (fun f => f.predicted_price) ++
    confLowerValues fs ++ confUpperValues fs

/-- `Math.min(...l)` on a non-empty spread of finite numbers.  The empty
case never arises at the call sites (they are guarded by
`data.length === 0`); we return `0` there. -/
def listMin : List ℚ → ℚ
  | [] => 0
  | x :: xs => xs.foldl min x

/-- `Math.max(...l)` on a non-empty spread of finite numbers. -/
def listMax : List ℚ → ℚ
  | [] => 0
  | x :: xs => xs.foldl max x

/-- Scale computation of `CandlestickChart`
(`frontend/src/components/CandlestickChart.tsx`, the `useMemo` block):
empty data falls back to `{0, 100, 100}`; otherwise min/max over
`allPrices`, 10% symmetric padding. -/
def candlestickScale (data : List HistoricalPrice) (fs : List Forecast) :
    ChartScale :=
  if data.isEmpty then ⟨0, 100, 100⟩
  else
    let ps := allChartPrices data fs
    let mn := listMin ps
    let mx := listMax ps
    let range := mx - mn
    let pad := range * (1 / 10)
    ⟨mn - pad, mx + pad, range + pad * 2⟩

/-- `data.slice(-30)` of `EnhancedCandlestickChart`: the last 30
historical points (all of them when there are fewer). -/
def enhancedVisible (data : List HistoricalPrice) : List HistoricalPrice :=
  data.drop (data.length - 30)

/-- The `allPrices` array of `EnhancedCandlestickChart` restricted to
finite inputs: low/high/close/open of the visible points, predicted
prices and truthy confidence bounds.  The source additionally filters out
`NaN`/`Infinity`; on rational (finite) inputs that filter is the
identity, and its behaviour on special values is modeled separately by
`enhancedAllPricesJs`. -/
def enhancedAllPrices (data : List HistoricalPrice) (fs : List Forecast) :
    List ℚ :=
  ((enhancedVisible data).map fun d => [d.low, d.high, d.close, d.open_]).flatten ++
    fs.map (fun f => f.predicted_price) ++
    confLowerValues fs ++ confUpperValues fs

/-- Scale computation of `EnhancedCandlestickChart` (part_000, first
component): empty data falls back to `{0, 100, 100}`, as does an empty
filtered price collection; otherwise min/max with 5% symmetric padding. -/
def enhancedScale (data : List HistoricalPrice) (fs : List Forecast) :
    ChartScale :=
  if data.isEmpty then ⟨0, 100, 100⟩
  else
    let ps := enhancedAllPrices data fs
    if ps.isEmpty then ⟨0, 100, 100⟩
    else
      let mn := listMin ps
      let mx := listMax ps
      let range := mx - mn
      let pad := range * (5 / 100)
      ⟨mn - pad, mx + pad, range + pad * 2⟩

/-- Confidence-band guard of the chart components:
`forecast.confidence_lower && forecast.confidence_upper && (<band svg>)` —
the band is rendered exactly when both bounds are truthy. -/
def bandDrawn (f : Forecast) : Bool :=
  jsTruthy f.confidence_lower && jsTruthy f.confidence_upper

/-- Chart width of `EnhancedCandlestickChart`:
`Math.max(800, visibleData.length * 25)`. -/
def chartWidthE (n : ℕ) : ℚ :=
  max (800 : ℚ) (25 * (n : ℚ))

/-- Inner width of `EnhancedCandlestickChart`:
`chartWidth - padding.left - padding.right` with `left = right = 60`. -/
def innerWidthE (data : List HistoricalPrice) : ℚ :=
  chartWidthE (enhancedVisible data).length - 60 - 60

/-- The `allDates` array of `EnhancedCandlestickChart`: timestamps of the
visible historical points followed by the forecast target timestamps
(milliseconds, modeled as rationals). -/
def allDates (data : List HistoricalPrice) (fs : List Forecast) : List ℚ :=
  (enhancedVisible data).map (fun d => d.timestamp) ++
    fs.map fun f => f.target_timestamp

/-- `dateRange.min` of `EnhancedCandlestickChart`. -/
def dateRangeMin (data : List HistoricalPrice) (fs : List Forecast) : ℚ :=
  listMin (allDates data fs)

/-- `dateRange.max` of `EnhancedCandlestickChart`. -/
def dateRangeMax (data : List HistoricalPrice) (fs : List Forecast) : ℚ :=
  listMax (allDates data fs)

/-- The `getX` time-to-x mapping of `EnhancedCandlestickChart`:
`padding.left + ((t - min) / (max - min)) * innerWidth`, returning
`padding.left = 60` when the time range is degenerate. -/
def getX (data : List HistoricalPrice) (fs : List Forecast) (t : ℚ) : ℚ :=
  let totalTimeRange := dateRangeMax data fs - dateRangeMin data fs
  let timePosition := t - dateRangeMin data fs
  if totalTimeRange = 0 then 60
  else 60 + (timePosition / totalTimeRange) * innerWidthE data

/-- Forecast down-sampling of `EnhancedCandlestickChart`
(`visibleForecasts`): with more than three forecasts only the first, the
middle (`floor(n/2)`) and the last are kept. -/
def visibleForecasts (fs : List Forecast) : List Forecast :=
  if fs.length ≤ 3 then fs
  else [fs.getD 0 default, fs.getD (fs.length / 2) default,
    fs.getD (fs.length - 1) default]

/-- Start price shown by the forecast summary cards:
`visibleForecasts[0].predicted_price`. -/
def summaryStartPrice (fs : List Forecast) : ℚ :=
  ((visibleForecasts fs).getD 0 default).predicted_price

/-- End price shown by the forecast summary cards:
`visibleForecasts[visibleForecasts.length - 1].predicted_price`. -/
def summaryEndPrice (fs : List Forecast) : ℚ :=
  ((visibleForecasts fs).getD ((visibleForecasts fs).length - 1)
    default).predicted_price

/-- Percentage change shown by the summary cards:
`(end - start) / start * 100` over `visibleForecasts`. -/
def summaryDeltaPct (fs : List Forecast) : ℚ :=
  (summaryEndPrice fs - summaryStartPrice fs) / summaryStartPrice fs * 100

/-- One entry of the `predictionErrors` state of `MonitoringDashboard`
(the canonical `PredictionError` shape of `mongodb.ts`), numeric fields
modeled as rationals. -/
structure PredictionErrorPoint where
  timestamp : ℚ
  predicted : ℚ
  actual : ℚ
  error : ℚ
deriving DecidableEq, Repr

/-- Output record of `calculateModelMetrics`.  The source computes
`rmse = Math.sqrt(mean(error^2))`; we store the radicand `meanSqError`,
and theorems about rmse use `Real.sqrt meanSqError`. -/
structure ModelMetrics where
  mae : ℚ
  meanSqError : ℚ
  mape : ℚ
deriving DecidableEq, Repr

/-- `mae` of `calculateModelMetrics`
(`MonitoringDashboard.tsx`): mean of `Math.abs(e.error)` computed by a
fold, divided by the number of points. -/
def calcMae (l : List PredictionErrorPoint) : ℚ :=
  ((l.map fun e => |e.error|).foldl (· + ·) 0) / (l.length : ℚ)

/-- The radicand of `rmse` in `calculateModelMetrics`:
`reduce((sum, e) => sum + Math.pow(e.error, 2), 0) / length`. -/
def calcMeanSqError (l : List PredictionErrorPoint) : ℚ :=
  (l.foldl (fun sum e => sum + e.error ^ 2) 0) / (l.length : ℚ)

/-- `mape` of `calculateModelMetrics`: the fold adds
`|error| / |actual|` only for points with `actual !== 0`, but the
result is divided by the length of the whole list. -/
def calcMape (l : List PredictionErrorPoint) : ℚ :=
  ((l.foldl
      (fun sum e => if e.actual ≠ 0 then sum + |e.error| / |e.actual| else sum)
      0) / (l.length : ℚ)) * 100

/-- `calculateModelMetrics` of `MonitoringDashboard.tsx`: `null` on an
empty error list, otherwise the three statistics. -/
def calculateModelMetrics (l : List PredictionErrorPoint) :
    Option ModelMetrics :=
  if l.isEmpty then none
  else some ⟨calcMae l, calcMeanSqError l, calcMape l⟩

/-! JavaScript-number model with special values, used where the claims
concern `NaN`/`Infinity` behaviour of the scale computation. -/

/-- A JavaScript number: a finite value (modeled as a rational), `NaN`,
`Infinity` or `-Infinity`. -/
inductive JsVal where
  | num (q : ℚ)
  | nan
  | inf
  | ninf
deriving DecidableEq, Repr

/-- `Number.isNaN` / global `isNaN` on a number. -/
def jsIsNaN : JsVal → Bool
  | .nan => true
  | _ => false

/-- `isFinite`: false on `NaN` and on both infinities. -/
def jsIsFinite : JsVal → Bool
  | .num _ => true
  | _ => false

/-- Truthiness of a JavaScript number: `0` and `NaN` are falsy,
infinities and non-zero finite values are truthy. -/
def jsTruthyV : JsVal → Bool
  | .num q => decide (q ≠ 0)
  | .nan => false
  | _ => true

/-- Truthiness of a `number | null` value (`null` is falsy). -/
def jsTruthyO : Option JsVal → Bool
  | none => false
  | some v => jsTruthyV v

/-- Binary `Math.min`: `NaN` absorbs, `-Infinity` is least. -/
def jsMin : JsVal → JsVal → JsVal
  | .nan, _ => .nan
  | _, .nan => .nan
  | .ninf, _ => .ninf
  | _, .ninf => .ninf
  | .inf, b => b
  | a, .inf => a
  | .num a, .num b => .num (min a b)

/-- Binary `Math.max`: `NaN` absorbs, `Infinity` is greatest. -/
def jsMax : JsVal → JsVal → JsVal
  | .nan, _ => .nan
  | _, .nan => .nan
  | .inf, _ => .inf
  | _, .inf => .inf
  | .ninf, b => b
  | a, .ninf => a
  | .num a, .num b => .num (max a b)

/-- `Math.min(...l)`: the spread call folds binary min over the
arguments starting from `Infinity` (the value of `Math.min()`). -/
def jsMinList (l : List JsVal) : JsVal :=
  l.foldl jsMin .inf

/-- `Math.max(...l)` starting from `-Infinity`. -/
def jsMaxList (l : List JsVal) : JsVal :=
  l.foldl jsMax .ninf

/-- Negation of a JavaScript number. -/
def jsNeg : JsVal → JsVal
  | .num q => .num (-q)
  | .nan => .nan
  | .inf => .ninf
  | .ninf => .inf

/-- IEEE addition on JavaScript numbers: `NaN` absorbs and
`Infinity + -Infinity = NaN`. -/
def jsAdd : JsVal → JsVal → JsVal
  | .nan, _ => .nan
  | _, .nan => .nan
  | .inf, .ninf => .nan
  | .ninf, .inf => .nan
  | .inf, _ => .inf
  | _, .inf => .inf
  | .ninf, _ => .ninf
  | _, .ninf => .ninf
  | .num a, .num b => .num (a + b)

/-- IEEE subtraction `a - b = a + (-b)`. -/
def jsSub (a b : JsVal) : JsVal :=
  jsAdd a (jsNeg b)

/-- IEEE multiplication: `NaN` absorbs, `Infinity * 0 = NaN`, otherwise
infinities keep the sign of the finite factor. -/
def jsMul : JsVal → JsVal → JsVal
  | .nan, _ => .nan
  | _, .nan => .nan
  | .inf, .inf => .inf
  | .inf, .ninf => .ninf
  | .ninf, .inf => .ninf
  | .ninf, .ninf => .inf
  | .inf, .num b => if b = 0 then .nan else if 0 < b then .inf else .ninf
  | .num a, .inf => if a = 0 then .nan else if 0 < a then .inf else .ninf
  | .ninf, .num b => if b = 0 then .nan else if 0 < b then .ninf else .inf
  | .num a, .ninf => if a = 0 then .nan else if 0 < a then .ninf else .inf
  | .num a, .num b => .num (a * b)

/-- Historical price point with JavaScript-number fields (special values
allowed). -/
structure JsHistoricalPrice where
  low : JsVal
  high : JsVal
  open_ : JsVal
  close : JsVal
deriving DecidableEq, Repr

/-- Forecast point with JavaScript-number fields. -/
structure JsForecast where
  predicted_price : JsVal
  confidence_lower : Option JsVal
  confidence_upper : Option JsVal
deriving DecidableEq, Repr

/-- Chart scale with JavaScript-number fields. -/
structure JsChartScale where
  minPrice : JsVal
  maxPrice : JsVal
  priceRange : JsVal
deriving DecidableEq, Repr

/-- The scale computation of `CandlestickChart` on JavaScript numbers.
The source applies no finiteness filter to `allPrices`, so special
values flow into `Math.min` / `Math.max` and the padding arithmetic. -/
def candlestickScaleJs (data : List JsHistoricalPrice)
    (fs : List JsForecast) : JsChartScale :=
  if data.isEmpty then ⟨.num 0, .num 100, .num 100⟩
  else
    let allPrices :=
      (data.map fun d => [d.low, d.high]).flatten ++
        fs.map (fun f => f.predicted_price) ++
        ((fs.filter fun f => jsTruthyO f.confidence_lower).map fun f =>
          f.confidence_lower.getD .nan) ++
        ((fs.filter fun f => jsTruthyO f.confidence_upper).map fun f =>
          f.confidence_upper.getD .nan)
    let mn := jsMinList allPrices
    let mx := jsMaxList allPrices
    let range := jsSub mx mn
    let pad := jsMul range (.num (1 / 10))
    ⟨jsSub mn pad, jsAdd mx pad, jsAdd range (jsMul pad (.num 2))⟩

/-- The filtered `allPrices` collection of `EnhancedCandlestickChart` on
JavaScript numbers: low/high/close/open of the last 30 points, predicted
prices and truthy confidence bounds, then
`.filter(price => !isNaN(price) && isFinite(price))`. -/
def enhancedAllPricesJs (data : List JsHistoricalPrice)
    (fs : List JsForecast) : List JsVal :=
  let visible := data.drop (data.length - 30)
  ((visible.map fun d => [d.low, d.high, d.close, d.open_]).flatten ++
      fs.map (fun f => f.predicted_price) ++
      ((fs.filter fun f => jsTruthyO f.confidence_lower).map fun f =>
        f.confidence_lower.getD .nan) ++
      ((fs.filter fun f => jsTruthyO f.confidence_upper).map fun f =>
        f.confidence_upper.getD .nan)).filter
    fun price => !jsIsNaN price && jsIsFinite price

/-! Model of the DataClient fetch wrappers (`frontend/src/lib/mongodb.ts`).
A call is determined by the HTTP outcome: either the transport fails
(`fetch` rejects / the body is not parseable JSON) or a response with a
success flag (`res.ok`) and a JSON body arrives. -/

/-- A JSON value as delivered by `res.json()`. -/
inductive Json where
  | null
  | bool (b : Bool)
  | num (q : ℚ)
  | str (s : String)
  | arr (elems : List Json)
  | obj (fields : List (String × Json))

/-- `Array.isArray`. -/
def Json.isArr : Json → Bool
  | .arr _ => true
  | _ => false

/-- Truthiness of a JSON value held in a JavaScript variable:
`null`, `false`, `0` and the empty string are falsy. -/
def Json.truthy : Json → Bool
  | .null => false
  | .bool b => b
  | .num q => decide (q ≠ 0)
  | .str s => decide (s ≠ "")
  | .arr _ => true
  | .obj _ => true

/-- Property access `o.k` on a parsed JSON object; a missing key (or a
non-object receiver) yields `undefined`, which we conflate with `null`
(both are falsy and both propagate the same way through the `||`
fallbacks used by the client). -/
def Json.get : Json → String → Json
  | .obj fields, k => ((fields.find? fun p => p.1 == k).map Prod.snd).getD .null
  | _, _ => .null

/-- The JavaScript `a || b` fallback. -/
def jsOrElse (a b : Json) : Json :=
  if a.truthy then a else b

/-- JavaScript subtraction of two parsed JSON values, used for
`error.actual - error.predicted`; on non-numeric operands the source
produces `NaN`, which never reaches any claim — we return `null` for it. -/
def Json.subNum : Json → Json → Json
  | .num a, .num b => .num (a - b)
  | _, _ => .null

/-- Outcome of one `fetch` call: transport failure (rejected promise), or
a response with its `ok` flag and parsed JSON body. -/
inductive HttpResp where
  | fail
  | resp (ok : Bool) (body : Json)

/-- `Array.isArray(data) ? data : []` — the normalization applied by the
collection endpoints that guard against malformed payloads. -/
def normalizeArr (j : Json) : Json :=
  if j.isArr then j else .arr []

/-- `fetchInstruments`: throws on non-success status, otherwise
normalizes the payload to an array. -/
def fetchInstruments : HttpResp → Except String Json
  | .fail => .error "network error"
  | .resp ok body =>
    if !ok then .error "Failed to fetch instruments"
    else .ok (normalizeArr body)

/-- `fetchHistoricalData`: throws on non-success status, otherwise
normalizes the payload to an array. -/
def fetchHistoricalData : HttpResp → Except String Json
  | .fail => .error "network error"
  | .resp ok body =>
    if !ok then .error "Failed to fetch historical data"
    else .ok (normalizeArr body)

/-- `fetchModels`: throws on non-success status and returns `res.json()`
directly — the source performs no `Array.isArray` normalization here. -/
def fetchModels : HttpResp → Except String Json
  | .fail => .error "network error"
  | .resp ok body =>
    if !ok then .error "Failed to fetch models"
    else .ok body

/-- `generateForecast`: throws on non-success status, otherwise
normalizes the payload to an array. -/
def generateForecast : HttpResp → Except String Json
  | .fail => .error "network error"
  | .resp ok body =>
    if !ok then .error "Failed to generate forecast"
    else .ok (normalizeArr body)

/-- `getModelVersions`: throws on non-success status and returns
`res.json()` directly — no `Array.isArray` normalization. -/
def getModelVersions : HttpResp → Except String Json
  | .fail => .error "network error"
  | .resp ok body =>
    if !ok then .error "Failed to fetch model versions"
    else .ok body

/-- `getPerformanceAlerts`: throws on non-success status, otherwise
normalizes the payload to an array. -/
def getPerformanceAlerts : HttpResp → Except String Json
  | .fail => .error "network error"
  | .resp ok body =>
    if !ok then .error "Failed to fetch performance alerts"
    else .ok (normalizeArr body)

/-- `getMetricsHistory`: throws on non-success status, otherwise
normalizes the payload to an array. -/
def getMetricsHistory : HttpResp → Except String Json
  | .fail => .error "network error"
  | .resp ok body =>
    if !ok then .error "Failed to fetch metrics history"
    else .ok (normalizeArr body)

/-- `getModelPerformance`: throws a typed error on non-success status and
propagates transport failures (no try/catch around it). -/
def getModelPerformance : HttpResp → Except String Json
  | .fail => .error "network error"
  | .resp ok body =>
    if !ok then .error "Failed to fetch model performance"
    else .ok body

/-- The canonical error record built by `getPredictionErrors`; each field
holds the JavaScript value produced by the remapping. -/
structure FormattedError where
  timestamp : Json
  predicted : Json
  actual : Json
  error : Json
  symbol : Json
  model_type : Json

/-- Field remapping of one raw error item in `getPredictionErrors`:
`predicted: error.predicted || error.predicted_price`, etc., and
`error: error.error || (error.actual - error.predicted)`. -/
def formatPredictionError (symbol : String) (e : Json) : FormattedError where
  timestamp := e.get "timestamp"
  predicted := jsOrElse (e.get "predicted") (e.get "predicted_price")
  actual := jsOrElse (e.get "actual") (e.get "actual_price")
  error := jsOrElse (e.get "error")
    ((e.get "actual").subNum (e.get "predicted"))
  symbol := jsOrElse (e.get "symbol") (.str symbol)
  model_type := e.get "model_type"

/-- Body of the `try` block of `getPredictionErrors`: a non-success
status returns the empty list (after a console warning), a success maps
the items when the payload is an array and substitutes the empty list
otherwise.  Transport failure escapes as an exception here. -/
def getPredictionErrorsCore (symbol : String) :
    HttpResp → Except String (List FormattedError)
  | .fail => .error "network error"
  | .resp ok body =>
    if !ok then .ok []
    else
      .ok (match body with
        | .arr l => l.map (formatPredictionError symbol)
        | _ => [])

/-- The `catch` of a JavaScript `try { .. } catch { return d }`. -/
def tryCatch {α : Type} (x : Except String α) (d : α) : α :=
  match x with
  | .ok a => a
  | .error _ => d

/-- `getPredictionErrors`: the whole body is wrapped in
`try { ... } catch { return [] }`, so every failure yields `[]`. -/
def getPredictionErrors (symbol : String) (r : HttpResp) :
    List FormattedError :=
  tryCatch (getPredictionErrorsCore symbol r) []

/-- Body of the `try` block of `healthCheck`: returns `res.ok`. -/
def healthCheckCore : HttpResp → Except String Bool
  | .fail => .error "network error"
  | .resp ok _ => .ok ok

/-- `healthCheck`: `try { return res.ok } catch { return false }`. -/
def healthCheck (r : HttpResp) : Bool :=
  tryCatch (healthCheckCore r) false

/-! Helper lemmas about list folds, minima and sums. -/

lemma foldl_min_le_init (xs : List ℚ) (a : ℚ) : xs.foldl min a ≤ a := by
  induction xs generalizing a with
  | nil => simp
  | cons y ys ih => exact le_trans (ih (min a y)) (min_le_left _ _)

lemma foldl_min_le_mem {x : ℚ} (xs : List ℚ) (a : ℚ) (hx : x ∈ xs) :
    xs.foldl min a ≤ x := by
  induction xs generalizing a with
  | nil => cases hx
  | cons y ys ih =>
    rcases List.mem_cons.mp hx with h | h
    · subst h
      exact le_trans (foldl_min_le_init ys (min a x)) (min_le_right _ _)
    · exact ih (min a y) h

lemma init_le_foldl_max (xs : List ℚ) (a : ℚ) : a ≤ xs.foldl max a := by
  induction xs generalizing a with
  | nil => simp
  | cons y ys ih => exact le_trans (le_max_left _ _) (ih (max a y))

lemma mem_le_foldl_max {x : ℚ} (xs : List ℚ) (a : ℚ) (hx : x ∈ xs) :
    x ≤ xs.foldl max a := by
  induction xs generalizing a with
  | nil => cases hx
  | cons y ys ih =>
    rcases List.mem_cons.mp hx with h | h
    · subst h
      exact le_trans (le_max_right _ _) (init_le_foldl_max ys (max a x))
    · exact ih (max a y) h

lemma listMin_le_mem {x : ℚ} {l : List ℚ} (hx : x ∈ l) : listMin l ≤ x := by
  cases l with
  | nil => cases hx
  | cons y ys =>
    rcases List.mem_cons.mp hx with h | h
    · subst h
      exact foldl_min_le_init ys x
    · exact foldl_min_le_mem ys y h

lemma mem_le_listMax {x : ℚ} {l : List ℚ} (hx : x ∈ l) : x ≤ listMax l := by
  cases l with
  | nil => cases hx
  | cons y ys =>
    rcases List.mem_cons.mp hx with h | h
    · subst h
      exact init_le_foldl_max ys x
    · exact mem_le_foldl_max ys y h

lemma listMin_le_listMax {l : List ℚ} (hl : l ≠ []) :
    listMin l ≤ listMax l := by
  cases l with
  | nil => exact absurd rfl hl
  | cons y ys =>
    exact le_trans (listMin_le_mem (List.mem_cons_self y ys))
      (mem_le_listMax (List.mem_cons_self y ys))

lemma foldl_add_eq_sum (l : List ℚ) (a : ℚ) :
    l.foldl (· + ·) a = a + l.sum := by
  induction l generalizing a with
  | nil => simp
  | cons x xs ih => simp [List.foldl_cons, ih, add_assoc]

lemma foldl_add_map_eq_sum {α : Type} (l : List α) (f : α → ℚ) (a : ℚ) :
    l.foldl (fun s e => s + f e) a = a + (l.map f).sum := by
  induction l generalizing a with
  | nil => simp
  | cons x xs ih => simp [List.foldl_cons, ih, add_assoc]

lemma foldl_if_eq_filter_sum {α : Type} (l : List α) (P : α → Prop)
    [DecidablePred P] (f : α → ℚ) (a : ℚ) :
    l.foldl (fun s e => if P e then s + f e else s) a =
      a + ((l.filter fun e => P e).map f).sum := by
  induction l generalizing a with
  | nil => simp
  | cons x xs ih =>
    by_cases hx : P x
    · simp [List.foldl_cons, hx, ih, add_assoc]
    · simp [List.foldl_cons, hx, ih]

lemma sum_sq_dev (l : List ℚ) (m : ℚ) :
    (l.map fun x => (x - m) ^ 2).sum =
      (l.map fun x => x ^ 2).sum - 2 * m * l.sum + (l.length : ℚ) * m ^ 2 := by
  induction l with
  | nil => simp
  | cons x xs ih =>
    simp only [List.map_cons, List.sum_cons, ih, List.length_cons]
    push_cast
    ring

lemma sum_map_nonneg {α : Type} (l : List α) (f : α → ℚ)
    (h : ∀ x ∈ l, 0 ≤ f x) : 0 ≤ (l.map f).sum := by
  induction l with
  | nil => simp
  | cons x xs ih =>
    simp only [List.map_cons, List.sum_cons]
    have hx := h x (List.mem_cons_self x xs)
    have hxs := ih fun y hy => h y (List.mem_cons_of_mem x hy)
    linarith

lemma sum_map_eq_zero_of_nonneg {α : Type} (l : List α) (f : α → ℚ)
    (h : ∀ x ∈ l, 0 ≤ f x) (hz : (l.map f).sum = 0) :
    ∀ x ∈ l, f x = 0 := by
  induction l with
  | nil => intro x hx; cases hx
  | cons y ys ih =>
    intro x hx
    simp only [List.map_cons, List.sum_cons] at hz
    have hy := h y (List.mem_cons_self y ys)
    have hys : 0 ≤ (ys.map f).sum :=
      sum_map_nonneg ys f fun z hz' => h z (List.mem_cons_of_mem y hz')
    rcases List.mem_cons.mp hx with hcase | hcase
    · subst hcase
      linarith
    · exact ih (fun z hz' => h z (List.mem_cons_of_mem y hz'))
        (by linarith) x hcase

lemma candlestickScale_eq (data : List HistoricalPrice) (fs : List Forecast)
    (h : data ≠ []) :
    candlestickScale data fs =
      ⟨listMin (allChartPrices data fs) -
          (listMax (allChartPrices data fs) - listMin (allChartPrices data fs)) *
            (1 / 10),
        listMax (allChartPrices data fs) +
          (listMax (allChartPrices data fs) - listMin (allChartPrices data fs)) *
            (1 / 10),
        (listMax (allChartPrices data fs) - listMin (allChartPrices data fs)) +
          (listMax (allChartPrices data fs) - listMin (allChartPrices data fs)) *
            (1 / 10) * 2⟩ := by
  rw [candlestickScale, if_neg (by simp [h])]

lemma low_mem_allChartPrices {p : HistoricalPrice} {data : List HistoricalPrice}
    (fs : List Forecast) (hp : p ∈ data) : p.low ∈ allChartPrices data fs := by
  have hmem : p.low ∈ (data.map fun d => [d.low, d.high]).flatten :=
    List.mem_flatten.mpr ⟨[p.low, p.high], List.mem_map_of_mem _ hp, by simp⟩
  exact List.mem_append_left _ (List.mem_append_left _
    (List.mem_append_left _ hmem))

lemma high_mem_allChartPrices {p : HistoricalPrice} {data : List HistoricalPrice}
    (fs : List Forecast) (hp : p ∈ data) : p.high ∈ allChartPrices data fs := by
  have hmem : p.high ∈ (data.map fun d => [d.low, d.high]).flatten :=
    List.mem_flatten.mpr ⟨[p.low, p.high], List.mem_map_of_mem _ hp, by simp⟩
  exact List.mem_append_left _ (List.mem_append_left _
    (List.mem_append_left _ hmem))

/-- Claim C5: with an empty historical array both chart scale computations
return exactly `minPrice = 0`, `maxPrice = 100`, `priceRange = 100`,
whatever the forecast input is; the computation is total (no exception). -/
theorem claim_c5_empty_data_default (fs : List Forecast) :
    candlestickScale [] fs = ⟨0, 100, 100⟩ ∧
    enhancedScale [] fs = ⟨0, 100, 100⟩ :=
  ⟨rfl, rfl⟩

/-- Claim C4 (counterexample): the claim fails on the code.  A single
historical point with all prices equal yields `priceRange = 0`, not
`priceRange > 0`; and for a point whose `open` lies below `low` the
computed `minPrice = 9` does not bound `open = 5`. -/
theorem claim_c4_counterexample :
    (candlestickScale [⟨0, 10, 10, 10, 10, 0⟩] []).priceRange = 0 ∧
    ¬ ((candlestickScale [⟨0, 5, 20, 10, 15, 0⟩] []).minPrice ≤ (5 : ℚ)) := by
  constructor
  · norm_num [candlestickScale, allChartPrices, confLowerValues,
      confUpperValues, listMin, listMax, List.foldl]
  · norm_num [candlestickScale, allChartPrices, confLowerValues,
      confUpperValues, listMin, listMax, List.foldl]

/-- Claim C4 (amended): for every non-empty historical series the padded
scale of `CandlestickChart` satisfies `minPrice ≤ low, high ≤ maxPrice`
for every point, and `priceRange ≥ 0`.  The bound does not extend to
`open`/`close` (they are not collected into `allPrices` by this
component), and `priceRange` is `0` — not positive — when all collected
prices are equal. -/
theorem claim_c4_amended (data : List HistoricalPrice) (fs : List Forecast)
    (h : data ≠ []) :
    0 ≤ (candlestickScale data fs).priceRange ∧
    ∀ p ∈ data,
      (candlestickScale data fs).minPrice ≤ p.low ∧
      (candlestickScale data fs).minPrice ≤ p.high ∧
      p.low ≤ (candlestickScale data fs).maxPrice ∧
      p.high ≤ (candlestickScale data fs).maxPrice := by
  obtain ⟨d, rest, rfl⟩ : ∃ d rest, data = d :: rest := by
    cases data with
    | nil => exact absurd rfl h
    | cons d rest => exact ⟨d, rest, rfl⟩
  rw [candlestickScale_eq _ fs h]
  have hd : d ∈ d :: rest := List.mem_cons_self d rest
  have hmm : listMin (allChartPrices (d :: rest) fs) ≤
      listMax (allChartPrices (d :: rest) fs) :=
    listMin_le_listMax (List.ne_nil_of_mem (low_mem_allChartPrices fs hd))
  have hpad : 0 ≤ (listMax (allChartPrices (d :: rest) fs) -
      listMin (allChartPrices (d :: rest) fs)) * (1 / 10) :=
    mul_nonneg (by linarith) (by norm_num)
  refine ⟨by dsimp only; linarith, fun p hp => ?_⟩
  have h1 := listMin_le_mem (low_mem_allChartPrices fs hp)
  have h2 := listMin_le_mem (high_mem_allChartPrices fs hp)
  have h3 := mem_le_listMax (low_mem_allChartPrices fs hp)
  have h4 := mem_le_listMax (high_mem_allChartPrices fs hp)
  exact ⟨by dsimp only; linarith, by dsimp only; linarith,
    by dsimp only; linarith, by dsimp only; linarith⟩

/-- Claim C4 (amended, witness): the amended bound at a concrete
one-point series. -/
theorem claim_c4_amended_witness :
    ([⟨0, 10, 20, 9, 12, 0⟩] : List HistoricalPrice) ≠ [] ∧
    (0 ≤ (candlestickScale [⟨0, 10, 20, 9, 12, 0⟩] []).priceRange ∧
      ∀ p ∈ ([⟨0, 10, 20, 9, 12, 0⟩] : List HistoricalPrice),
        (candlestickScale [⟨0, 10, 20, 9, 12, 0⟩] []).minPrice ≤ p.low ∧
        (candlestickScale [⟨0, 10, 20, 9, 12, 0⟩] []).minPrice ≤ p.high ∧
        p.low ≤ (candlestickScale [⟨0, 10, 20, 9, 12, 0⟩] []).maxPrice ∧
        p.high ≤ (candlestickScale [⟨0, 10, 20, 9, 12, 0⟩] []).maxPrice) :=
  ⟨by simp, claim_c4_amended _ _ (by simp)⟩

/-- Claim C1 (counterexample): on the input
`[{actual: 0, error: 5}, {actual: 100, error: 10}]` the code computes
`mape = ((0 + 10/100) / 2) * 100 = 5`, not the claimed `10`: the
zero-actual point is dropped from the numerator sum but still counted in
the denominator. -/
theorem claim_c1_counterexample :
    calculateModelMetrics [⟨0, 0, 0, 5⟩, ⟨0, 90, 100, 10⟩] =
      some ⟨15 / 2, 125 / 2, 5⟩ ∧ (5 : ℚ) ≠ 10 := by
  constructor
  · norm_num [calculateModelMetrics, calcMae, calcMeanSqError, calcMape,
      List.foldl]
  · norm_num

/-- Claim C1 (amended): for every list accepted by
`calculateModelMetrics` (non-empty input), `mape` equals `100` times the
sum of `|error| / |actual|` over the points with non-zero `actual`,
divided by the length of the *whole* list — zero-actual points are
excluded from the numerator sum but not from the denominator count. -/
theorem claim_c1_amended (l : List PredictionErrorPoint) (m : ModelMetrics)
    (h : calculateModelMetrics l = some m) :
    m.mape = 100 * (((l.filter fun e => e.actual ≠ 0).map
      fun e => |e.error| / |e.actual|).sum) / (l.length : ℚ) := by
  rw [calculateModelMetrics] at h
  by_cases hl : l.isEmpty
  · simp [hl] at h
  · rw [if_neg hl, Option.some.injEq] at h
    subst h
    rw [calcMape, foldl_if_eq_filter_sum]
    ring

/-- Claim C1 (amended, witness): the amended formula at a concrete
one-point input. -/
theorem claim_c1_amended_witness :
    calculateModelMetrics [⟨0, 90, 100, 10⟩] = some ⟨10, 100, 10⟩ ∧
    (⟨10, 100, 10⟩ : ModelMetrics).mape =
      100 * ((([⟨0, 90, 100, 10⟩] : List PredictionErrorPoint).filter
        fun e => e.actual ≠ 0).map fun e => |e.error| / |e.actual|).sum /
        (([⟨0, 90, 100, 10⟩] : List PredictionErrorPoint).length : ℚ) :=
  ⟨by norm_num [calculateModelMetrics, calcMae, calcMeanSqError, calcMape,
      List.foldl],
    claim_c1_amended _ _ (by norm_num [calculateModelMetrics, calcMae,
      calcMeanSqError, calcMape, List.foldl])⟩

lemma calcMae_eq_sum_div (l : List PredictionErrorPoint) :
    calcMae l = (l.map fun e => |e.error|).sum / (l.length : ℚ) := by
  rw [calcMae, foldl_add_eq_sum, zero_add]

lemma calcMeanSqError_eq_sum_div (l : List PredictionErrorPoint) :
    calcMeanSqError l = (l.map fun e => e.error ^ 2).sum / (l.length : ℚ) := by
  rw [calcMeanSqError, foldl_add_map_eq_sum, zero_add]

lemma calcMae_nonneg (l : List PredictionErrorPoint) : 0 ≤ calcMae l := by
  rw [calcMae_eq_sum_div]
  exact div_nonneg (sum_map_nonneg _ _ fun e _ => abs_nonneg _)
    (Nat.cast_nonneg _)

lemma calcMeanSqError_nonneg (l : List PredictionErrorPoint) :
    0 ≤ calcMeanSqError l := by
  rw [calcMeanSqError_eq_sum_div]
  exact div_nonneg (sum_map_nonneg _ _ fun e _ => sq_nonneg _)
    (Nat.cast_nonneg _)

lemma mae_sq_le_meanSq (l : List PredictionErrorPoint) (h : l ≠ []) :
    calcMae l ^ 2 ≤ calcMeanSqError l ∧
    (calcMeanSqError l = calcMae l ^ 2 → ∀ p ∈ l, |p.error| = calcMae l) := by
  have hn : 0 < (l.length : ℚ) := by
    exact_mod_cast List.length_pos.mpr h
  have hsum : (l.map fun e => |e.error|).sum = (l.length : ℚ) * calcMae l := by
    rw [calcMae_eq_sum_div]
    field_simp
  have hsq : ((l.map fun e => |e.error|).map fun x => x ^ 2).sum =
      (l.map fun e => e.error ^ 2).sum := by
    rw [List.map_map]
    refine congrArg List.sum (List.map_congr_left fun e _ => ?_)
    simp [Function.comp, sq_abs]
  have hD : ((l.map fun e => |e.error|).map fun x => (x - calcMae l) ^ 2).sum =
      (l.map fun e => e.error ^ 2).sum - (l.length : ℚ) * calcMae l ^ 2 := by
    rw [sum_sq_dev, hsq, hsum, List.length_map]
    ring
  have hDnonneg :
      0 ≤ ((l.map fun e => |e.error|).map fun x => (x - calcMae l) ^ 2).sum :=
    sum_map_nonneg _ _ fun x _ => sq_nonneg _
  constructor
  · rw [calcMeanSqError_eq_sum_div, le_div_iff₀ hn]
    nlinarith [hD, hDnonneg]
  · intro heq p hp
    have hS2 : (l.map fun e => e.error ^ 2).sum =
        (l.length : ℚ) * calcMae l ^ 2 := by
      rw [calcMeanSqError_eq_sum_div] at heq
      field_simp at heq
      linarith
    have hD0 :
        ((l.map fun e => |e.error|).map fun x => (x - calcMae l) ^ 2).sum = 0 := by
      rw [hD, hS2]
      ring
    have hterm := sum_map_eq_zero_of_nonneg _ _ (fun x _ => sq_nonneg _) hD0
      |p.error| (List.mem_map_of_mem _ hp)
    have := sq_eq_zero_iff.mp hterm
    linarith [this]

/-- Claim C6: for every non-empty prediction-error list the statistics of
`calculateModelMetrics` satisfy `rmse ≥ mae ≥ 0` (where
`rmse = Real.sqrt meanSqError` models `Math.sqrt(mean(error^2))`), and
`rmse = mae` forces all absolute errors to be equal. -/
theorem claim_c6_rmse_ge_mae (l : List PredictionErrorPoint) (h : l ≠ []) :
    0 ≤ calcMae l ∧
    ((calcMae l : ℚ) : ℝ) ≤ Real.sqrt ((calcMeanSqError l : ℚ) : ℝ) ∧
    (Real.sqrt ((calcMeanSqError l : ℚ) : ℝ) = ((calcMae l : ℚ) : ℝ) →
      ∀ p ∈ l, ∀ q ∈ l, |p.error| = |q.error|) := by
  have hmae : 0 ≤ calcMae l := calcMae_nonneg l
  have hmaeR : (0 : ℝ) ≤ ((calcMae l : ℚ) : ℝ) := by exact_mod_cast hmae
  have hmsR : (0 : ℝ) ≤ ((calcMeanSqError l : ℚ) : ℝ) := by
    exact_mod_cast calcMeanSqError_nonneg l
  have hcore := mae_sq_le_meanSq l h
  refine ⟨hmae, ?_, ?_⟩
  · have h2 : (((calcMae l : ℚ) : ℝ)) ^ 2 ≤ ((calcMeanSqError l : ℚ) : ℝ) := by
      exact_mod_cast hcore.1
    calc ((calcMae l : ℚ) : ℝ)
        = Real.sqrt (((calcMae l : ℚ) : ℝ) ^ 2) := (Real.sqrt_sq hmaeR).symm
      _ ≤ Real.sqrt ((calcMeanSqError l : ℚ) : ℝ) := Real.sqrt_le_sqrt h2
  · intro heq p hp q hq
    have hmsEq : ((calcMeanSqError l : ℚ) : ℝ) =
        (((calcMae l : ℚ) : ℝ)) ^ 2 := by
      have := Real.sq_sqrt hmsR
      rw [heq] at this
      linarith [this]
    have hq2 : calcMeanSqError l = calcMae l ^ 2 := by
      exact_mod_cast hmsEq
    rw [hcore.2 hq2 p hp, hcore.2 hq2 q hq]

/-- Claim C6 (witness): the inequality at a concrete one-point list. -/
theorem claim_c6_rmse_ge_mae_witness :
    ([⟨0, 1, 3, 2⟩] : List PredictionErrorPoint) ≠ [] ∧
    (0 ≤ calcMae [⟨0, 1, 3, 2⟩] ∧
      ((calcMae [⟨0, 1, 3, 2⟩] : ℚ) : ℝ) ≤
        Real.sqrt ((calcMeanSqError [⟨0, 1, 3, 2⟩] : ℚ) : ℝ) ∧
      (Real.sqrt ((calcMeanSqError [⟨0, 1, 3, 2⟩] : ℚ) : ℝ) =
          ((calcMae [⟨0, 1, 3, 2⟩] : ℚ) : ℝ) →
        ∀ p ∈ ([⟨0, 1, 3, 2⟩] : List PredictionErrorPoint),
          ∀ q ∈ ([⟨0, 1, 3, 2⟩] : List PredictionErrorPoint),
            |p.error| = |q.error|)) :=
  ⟨by simp, claim_c6_rmse_ge_mae _ (by simp)⟩

lemma enhancedVisible_ne_nil {data : List HistoricalPrice} (h : data ≠ []) :
    enhancedVisible data ≠ [] := by
  intro hdrop
  rw [enhancedVisible, List.drop_eq_nil_iff] at hdrop
  have hpos : 0 < data.length := List.length_pos.mpr h
  omega

lemma allDates_ne_nil {data : List HistoricalPrice} (fs : List Forecast)
    (h : data ≠ []) : allDates data fs ≠ [] := by
  intro hnil
  rw [allDates, List.append_eq_nil] at hnil
  exact enhancedVisible_ne_nil h (List.map_eq_nil_iff.mp hnil.1)

lemma innerWidthE_nonneg (data : List HistoricalPrice) :
    0 ≤ innerWidthE data := by
  have h800 : (800 : ℚ) ≤ chartWidthE (enhancedVisible data).length :=
    le_max_left _ _
  rw [innerWidthE]
  linarith

/-- Claim C7: the time-to-x mapping of `EnhancedCandlestickChart` sends a
timestamp `t` to `left + ((t - min) / (max - min)) * innerWidth` over the
date range of the charted historical points and forecasts, is
monotonically non-decreasing in `t`, and when the range is degenerate
(`max = min`) it maps every timestamp to `left = 60` with no division by
zero. -/
theorem claim_c7_getX_monotone (data : List HistoricalPrice)
    (fs : List Forecast) (h : data ≠ []) (t1 t2 : ℚ) (ht : t1 ≤ t2) :
    getX data fs t1 ≤ getX data fs t2 ∧
    (dateRangeMax data fs = dateRangeMin data fs →
      ∀ t, getX data fs t = 60) ∧
    (dateRangeMax data fs ≠ dateRangeMin data fs →
      getX data fs t1 = 60 + ((t1 - dateRangeMin data fs) /
        (dateRangeMax data fs - dateRangeMin data fs)) * innerWidthE data) := by
  have hminmax : dateRangeMin data fs ≤ dateRangeMax data fs :=
    listMin_le_listMax (allDates_ne_nil fs h)
  have hW : 0 ≤ innerWidthE data := innerWidthE_nonneg data
  refine ⟨?_, ?_, ?_⟩
  · by_cases hdeg : dateRangeMax data fs - dateRangeMin data fs = 0
    · simp [getX, hdeg]
    · have hT : 0 < dateRangeMax data fs - dateRangeMin data fs :=
        lt_of_le_of_ne (by linarith) (Ne.symm hdeg)
      simp only [getX, if_neg hdeg]
      have hdiv : (t1 - dateRangeMin data fs) /
            (dateRangeMax data fs - dateRangeMin data fs) ≤
          (t2 - dateRangeMin data fs) /
            (dateRangeMax data fs - dateRangeMin data fs) := by
        gcongr
      have := mul_le_mul_of_nonneg_right hdiv hW
      linarith
  · intro hdeg t
    have : dateRangeMax data fs - dateRangeMin data fs = 0 := by
      rw [hdeg]; ring
    simp [getX, this]
  · intro hdeg
    have : dateRangeMax data fs - dateRangeMin data fs ≠ 0 :=
      sub_ne_zero.mpr hdeg
    simp [getX, this]

/-- Claim C7 (witness): the mapping at a concrete one-point series. -/
theorem claim_c7_getX_monotone_witness :
    ([⟨100, 0, 0, 0, 0, 0⟩] : List HistoricalPrice) ≠ [] ∧ (1 : ℚ) ≤ 2 ∧
    (getX [⟨100, 0, 0, 0, 0, 0⟩] [] 1 ≤ getX [⟨100, 0, 0, 0, 0, 0⟩] [] 2 ∧
      (dateRangeMax [⟨100, 0, 0, 0, 0, 0⟩] [] =
          dateRangeMin [⟨100, 0, 0, 0, 0, 0⟩] [] →
        ∀ t, getX [⟨100, 0, 0, 0, 0, 0⟩] [] t = 60) ∧
      (dateRangeMax [⟨100, 0, 0, 0, 0, 0⟩] [] ≠
          dateRangeMin [⟨100, 0, 0, 0, 0, 0⟩] [] →
        getX [⟨100, 0, 0, 0, 0, 0⟩] [] 1 =
          60 + ((1 - dateRangeMin [⟨100, 0, 0, 0, 0, 0⟩] []) /
            (dateRangeMax [⟨100, 0, 0, 0, 0, 0⟩] [] -
              dateRangeMin [⟨100, 0, 0, 0, 0, 0⟩] [])) *
            innerWidthE [⟨100, 0, 0, 0, 0, 0⟩])) :=
  ⟨by simp, by norm_num,
    claim_c7_getX_monotone _ _ (by simp) 1 2 (by norm_num)⟩

/-- Claim C9: with more than three forecasts, exactly the first, the
middle (`floor(n/2)`) and the last forecast are shown, and the summary
statistics (start price, end price, delta percentage), though computed by
the component from `visibleForecasts`, equal the same statistics over the
full forecast array — down-sampling preserves the first and last entry. -/
theorem claim_c9_downsampling (fs : List Forecast) (h : 3 < fs.length) :
    visibleForecasts fs = [fs.getD 0 default, fs.getD (fs.length / 2) default,
      fs.getD (fs.length - 1) default] ∧
    summaryStartPrice fs = (fs.getD 0 default).predicted_price ∧
    summaryEndPrice fs = (fs.getD (fs.length - 1) default).predicted_price ∧
    summaryDeltaPct fs = ((fs.getD (fs.length - 1) default).predicted_price -
      (fs.getD 0 default).predicted_price) /
      (fs.getD 0 default).predicted_price * 100 := by
  have hnot : ¬ fs.length ≤ 3 := not_le.mpr h
  have hv : visibleForecasts fs = [fs.getD 0 default,
      fs.getD (fs.length / 2) default, fs.getD (fs.length - 1) default] := by
    rw [visibleForecasts, if_neg hnot]
  have hstart : summaryStartPrice fs = (fs.getD 0 default).predicted_price := by
    rw [summaryStartPrice, hv]
    rfl
  have hend : summaryEndPrice fs =
      (fs.getD (fs.length - 1) default).predicted_price := by
    rw [summaryEndPrice, hv]
    rfl
  refine ⟨hv, hstart, hend, ?_⟩
  rw [summaryDeltaPct, hstart, hend]

/-- Claim C9 (witness): down-sampling of a concrete four-element forecast
list. -/
theorem claim_c9_downsampling_witness :
    3 < ([⟨0, 1, none, none⟩, ⟨1, 2, none, none⟩, ⟨2, 3, none, none⟩,
      ⟨3, 4, none, none⟩] : List Forecast).length ∧
    (visibleForecasts [⟨0, 1, none, none⟩, ⟨1, 2, none, none⟩,
        ⟨2, 3, none, none⟩, ⟨3, 4, none, none⟩] =
      [([⟨0, 1, none, none⟩, ⟨1, 2, none, none⟩, ⟨2, 3, none, none⟩,
          ⟨3, 4, none, none⟩] : List Forecast).getD 0 default,
        ([⟨0, 1, none, none⟩, ⟨1, 2, none, none⟩, ⟨2, 3, none, none⟩,
          ⟨3, 4, none, none⟩] : List Forecast).getD
          (([⟨0, 1, none, none⟩, ⟨1, 2, none, none⟩, ⟨2, 3, none, none⟩,
            ⟨3, 4, none, none⟩] : List Forecast).length / 2) default,
        ([⟨0, 1, none, none⟩, ⟨1, 2, none, none⟩, ⟨2, 3, none, none⟩,
          ⟨3, 4, none, none⟩] : List Forecast).getD
          (([⟨0, 1, none, none⟩, ⟨1, 2, none, none⟩, ⟨2, 3, none, none⟩,
            ⟨3, 4, none, none⟩] : List Forecast).length - 1) default] ∧
      summaryStartPrice [⟨0, 1, none, none⟩, ⟨1, 2, none, none⟩,
          ⟨2, 3, none, none⟩, ⟨3, 4, none, none⟩] =
        (([⟨0, 1, none, none⟩, ⟨1, 2, none, none⟩, ⟨2, 3, none, none⟩,
          ⟨3, 4, none, none⟩] : List Forecast).getD 0 default).predicted_price ∧
      summaryEndPrice [⟨0, 1, none, none⟩, ⟨1, 2, none, none⟩,
          ⟨2, 3, none, none⟩, ⟨3, 4, none, none⟩] =
        (([⟨0, 1, none, none⟩, ⟨1, 2, none, none⟩, ⟨2, 3, none, none⟩,
          ⟨3, 4, none, none⟩] : List Forecast).getD
          (([⟨0, 1, none, none⟩, ⟨1, 2, none, none⟩, ⟨2, 3, none, none⟩,
            ⟨3, 4, none, none⟩] : List Forecast).length - 1)
          default).predicted_price ∧
      summaryDeltaPct [⟨0, 1, none, none⟩, ⟨1, 2, none, none⟩,
          ⟨2, 3, none, none⟩, ⟨3, 4, none, none⟩] =
        ((([⟨0, 1, none, none⟩, ⟨1, 2, none, none⟩, ⟨2, 3, none, none⟩,
            ⟨3, 4, none, none⟩] : List Forecast).getD
            (([⟨0, 1, none, none⟩, ⟨1, 2, none, none⟩, ⟨2, 3, none, none⟩,
              ⟨3, 4, none, none⟩] : List Forecast).length - 1)
            default).predicted_price -
          (([⟨0, 1, none, none⟩, ⟨1, 2, none, none⟩, ⟨2, 3, none, none⟩,
            ⟨3, 4, none, none⟩] : List Forecast).getD 0
            default).predicted_price) /
          (([⟨0, 1, none, none⟩, ⟨1, 2, none, none⟩, ⟨2, 3, none, none⟩,
            ⟨3, 4, none, none⟩] : List Forecast).getD 0
            default).predicted_price * 100) :=
  ⟨by norm_num, claim_c9_downsampling _ (by norm_num)⟩

/-- Claim C10: a confidence bound whose value is the finite number `0` is
treated as absent by the chart components: it is dropped from the price
collection feeding the min/max scale (the truthiness filter rejects it)
and no confidence band is drawn for that forecast; a band is drawn
exactly when both bounds are truthy. -/
theorem claim_c10_zero_bound_truthiness (f : Forecast)
    (rest : List Forecast) :
    (f.confidence_lower = some 0 →
      confLowerValues (f :: rest) = confLowerValues rest ∧
      bandDrawn f = false) ∧
    (f.confidence_upper = some 0 →
      confUpperValues (f :: rest) = confUpperValues rest ∧
      bandDrawn f = false) ∧
    (bandDrawn f = true ↔
      jsTruthy f.confidence_lower = true ∧
      jsTruthy f.confidence_upper = true) := by
  refine ⟨?_, ?_, ?_⟩
  · intro h0
    constructor
    · simp [confLowerValues, List.filter_cons, h0, jsTruthy]
    · simp [bandDrawn, h0, jsTruthy]
  · intro h0
    constructor
    · simp [confUpperValues, List.filter_cons, h0, jsTruthy]
    · simp [bandDrawn, h0, jsTruthy]
  · simp [bandDrawn, Bool.and_eq_true]

/-- Claim C10 (witness): a concrete forecast with `confidence_lower = 0`
is excluded from the collected lower bounds and draws no band. -/
theorem claim_c10_zero_bound_truthiness_witness :
    (⟨0, 1, some 0, some 2⟩ : Forecast).confidence_lower = some 0 ∧
    (confLowerValues [⟨0, 1, some 0, some 2⟩] = confLowerValues [] ∧
      bandDrawn ⟨0, 1, some 0, some 2⟩ = false) :=
  ⟨rfl, (claim_c10_zero_bound_truthiness _ []).1 rfl⟩

/-- Claim C3 (counterexample): `CandlestickChart` applies no finiteness
filter, so a `NaN` low value propagates through `Math.min`/`Math.max`
into `minPrice`: on a single point with `low = NaN`, `high = 20` (and no
forecasts) the computed `minPrice` is `NaN`, not the `20` demanded by a
min over the finite values only. -/
theorem claim_c3_counterexample :
    jsIsNaN ((candlestickScaleJs [⟨.nan, .num 20, .num 10, .num 15⟩]
      []).minPrice) = true ∧
    (candlestickScaleJs [⟨.nan, .num 20, .num 10, .num 15⟩] []).minPrice ≠
      .num 20 := by
  constructor
  · rfl
  · simp [candlestickScaleJs, jsMinList, jsMaxList, jsMin, jsMax, jsSub,
      jsAdd, jsNeg, jsMul]

/-- Claim C3 (amended): only `EnhancedCandlestickChart` filters its price
collection to finite numeric values — every element surviving the filter
is finite and not `NaN`; `CandlestickChart` performs no such filtering,
so special values reach its min/max computation. -/
theorem claim_c3_amended_enhanced_filter (data : List JsHistoricalPrice)
    (fs : List JsForecast) (v : JsVal)
    (hv : v ∈ enhancedAllPricesJs data fs) :
    jsIsFinite v = true ∧ jsIsNaN v = false := by
  simp only [enhancedAllPricesJs] at hv
  obtain ⟨-, hpred⟩ := List.mem_filter.mp hv
  cases v <;> simp_all [jsIsNaN, jsIsFinite]

/-- Claim C3 (amended, witness): a concrete finite value surviving the
filter. -/
theorem claim_c3_amended_enhanced_filter_witness :
    (JsVal.num 5) ∈ enhancedAllPricesJs [⟨.num 5, .num 6, .num 5, .num 6⟩] [] ∧
    (jsIsFinite (.num 5) = true ∧ jsIsNaN (.num 5) = false) :=
  ⟨by decide,
    claim_c3_amended_enhanced_filter [⟨.num 5, .num 6, .num 5, .num 6⟩] []
      (.num 5) (by decide)⟩

lemma normalizeArr_isArr (j : Json) : (normalizeArr j).isArr = true := by
  cases j <;> rfl

/-- Claim C2 (counterexample): `fetchModels` does not normalize a
non-array payload — on a successful response whose body is the number
`3` it returns that number, not the empty array. -/
theorem claim_c2_counterexample :
    fetchModels (.resp true (.num 3)) = .ok (.num 3) ∧
    (Json.num 3).isArr = false :=
  ⟨rfl, rfl⟩

/-- Claim C2 (amended): of the collection-returning endpoints,
`fetchInstruments`, `fetchHistoricalData`, `generateForecast`,
`getPerformanceAlerts` and `getMetricsHistory` substitute the empty array
for a non-array payload (every value they return is an array), while
`fetchModels` and `getModelVersions` pass the upstream payload through
unchanged. -/
theorem claim_c2_amended_normalization (r : HttpResp) (j : Json) :
    (fetchInstruments r = .ok j → j.isArr = true) ∧
    (fetchHistoricalData r = .ok j → j.isArr = true) ∧
    (generateForecast r = .ok j → j.isArr = true) ∧
    (getPerformanceAlerts r = .ok j → j.isArr = true) ∧
    (getMetricsHistory r = .ok j → j.isArr = true) ∧
    (∀ body, fetchModels (.resp true body) = .ok body) ∧
    (∀ body, getModelVersions (.resp true body) = .ok body) := by
  refine ⟨?_, ?_, ?_, ?_, ?_, fun body => rfl, fun body => rfl⟩
  all_goals
    intro h
    cases r with
    | fail =>
      simp [fetchInstruments, fetchHistoricalData, generateForecast,
        getPerformanceAlerts, getMetricsHistory] at h
    | resp ok body =>
      cases ok with
      | false =>
        simp [fetchInstruments, fetchHistoricalData, generateForecast,
          getPerformanceAlerts, getMetricsHistory] at h
      | true =>
        simp only [fetchInstruments, fetchHistoricalData, generateForecast,
          getPerformanceAlerts, getMetricsHistory, Bool.not_true,
          Bool.false_eq_true, if_false, Except.ok.injEq] at h
        exact h ▸ normalizeArr_isArr body

/-- Claim C2 (amended, witness): a normalizing endpoint at a concrete
malformed payload returns the empty array. -/
theorem claim_c2_amended_normalization_witness :
    fetchInstruments (.resp true (.num 3)) = .ok (.arr []) ∧
    (Json.arr []).isArr = true :=
  ⟨rfl, (claim_c2_amended_normalization (.resp true (.num 3)) (.arr [])).1 rfl⟩

/-- Claim C8: for every HTTP outcome — transport failure included — the
two soft endpoints never throw: `getPredictionErrors` returns `[]` on
transport failure and on non-success status, `healthCheck` returns
`false` on both and `res.ok` on a response, while `getModelPerformance`
(a representative loud endpoint) surfaces an error on non-success status
and propagates transport failures. -/
theorem claim_c8_soft_endpoints (s : String) :
    getPredictionErrors s .fail = [] ∧
    (∀ body, getPredictionErrors s (.resp false body) = []) ∧
    healthCheck .fail = false ∧
    (∀ body, healthCheck (.resp false body) = false) ∧
    (∀ body, healthCheck (.resp true body) = true) ∧
    getModelPerformance .fail = .error "network error" ∧
    (∀ body, getModelPerformance (.resp false body) =
      .error "Failed to fetch model performance") :=
  ⟨rfl, fun _ => rfl, rfl, fun _ => rfl, fun _ => rfl, rfl, fun _ => rfl⟩

end Fintech
